import Mathlib

/-!
Verification of the sceptic gateway core against its specification.

The Python source (`sceptic/nonce.py`, `sceptic/tx.py`, `sceptic/gas.py`,
`sceptic/server.py`, `sceptic/erc20.py`) is shallowly embedded: stateful
objects become explicit state records, `await`-able chain queries become
function parameters supplying the query outcome, Python exceptions become
`Except` values, Python floats become exact rationals, and Python dicts
keyed by strings become association lists with dict update semantics.
-/

namespace Sceptic

/-! ### Association-list model of a Python dict (string keys) -/

/-- `d[k]` read: first binding for `k`, if any. -/
def dictGet (k : String) : List (String × Nat) → Option Nat
  | [] => none
  | (k', v) :: rest => if k' = k then some v else dictGet k rest

/-- `d[k] = v` write: replace the binding for `k`, or append it. -/
def dictSet (k : String) (v : Nat) : List (String × Nat) → List (String × Nat)
  | [] => [(k, v)]
  | (k', v') :: rest => if k' = k then (k, v) :: rest else (k', v') :: dictSet k v rest

/-- `d.pop(k, None)`: drop every binding for `k`. -/
def dictPop (k : String) : List (String × Nat) → List (String × Nat)
  | [] => []
  | (k', v') :: rest => if k' = k then dictPop k rest else (k', v') :: dictPop k rest

theorem dictGet_dictSet_self (k : String) (v : Nat) (d : List (String × Nat)) :
    dictGet k (dictSet k v d) = some v := by
  induction d with
  | nil => simp [dictSet, dictGet]
  | cons hd tl ih =>
    obtain ⟨k', v'⟩ := hd
    by_cases h : k' = k
    · simp [dictSet, dictGet, h]
    · simp [dictSet, dictGet, h, ih]

theorem dictGet_dictPop_self (k : String) (d : List (String × Nat)) :
    dictGet k (dictPop k d) = none := by
  induction d with
  | nil => simp [dictPop, dictGet]
  | cons hd tl ih =>
    obtain ⟨k', v'⟩ := hd
    by_cases h : k' = k
    · simp [dictPop, h, ih]
    · simp [dictPop, dictGet, h, ih]

/-! ### Nonce Allocator (`sceptic/nonce.py`, class `NonceManager`)

`self._nonces` is the only observable state of `NonceManager` (the
per-address `asyncio.Lock` dictionary serialises concurrent callers; in this
sequential embedding calls are already serialised, so the lock dictionary
carries no information).  `self.w3.to_checksum_address` is library code and
is passed in as an arbitrary function `cs`; `self.w3.eth.get_transaction_count`
is the chain query, passed in as `chain`, returning `.error` when the RPC
call raises. -/

structure NonceManager where
  nonces : List (String × Nat)
deriving DecidableEq, Repr

/-- `NonceManager._key`. -/
def NonceManager.key (cs : String → String) (addr : String) : String := cs addr

/-- `NonceManager.get_next`.  Source: under the per-key lock,
`if k not in self._nonces: self._nonces[k] = await get_transaction_count(k)`;
then `n = self._nonces[k]; self._nonces[k] = n + 1; return n`.  A raising
chain query leaves `self._nonces` untouched (the assignment never runs), so
the error case returns the state unchanged.  The two dict writes of the
uncached path collapse into one write of `c + 1`. -/
def NonceManager.get_next (cs : String → String) (chain : String → Except String Nat)
    (m : NonceManager) (address : String) : Except String Nat × NonceManager :=
  let k := NonceManager.key cs address
  match dictGet k m.nonces with
  | some n => (Except.ok n, ⟨dictSet k (n + 1) m.nonces⟩)
  | none =>
    match chain k with
    | Except.ok c => (Except.ok c, ⟨dictSet k (c + 1) m.nonces⟩)
    | Except.error e => (Except.error e, m)

/-- `NonceManager.reset`: `self._nonces.pop(k, None)`. -/
def NonceManager.reset (cs : String → String) (m : NonceManager) (address : String) :
    NonceManager :=
  ⟨dictPop (NonceManager.key cs address) m.nonces⟩

/-- `N` sequential calls to `get_next` for one address: the list of results
and the final state. -/
def NonceManager.get_next_iter (cs : String → String) (chain : String → Except String Nat)
    (m : NonceManager) (address : String) :
    Nat → List (Except String Nat) × NonceManager
  | 0 => ([], m)
  | Nat.succ n =>
    let step := NonceManager.get_next cs chain m address
    let rest := NonceManager.get_next_iter cs chain step.2 address n
    (step.1 :: rest.1, rest.2)

theorem get_next_cached (cs : String → String) (chain : String → Except String Nat)
    (m : NonceManager) (address : String) (n : Nat)
    (h : dictGet (cs address) m.nonces = some n) :
    NonceManager.get_next cs chain m address =
      (Except.ok n, ⟨dictSet (cs address) (n + 1) m.nonces⟩) := by
  simp [NonceManager.get_next, NonceManager.key, h]

theorem get_next_iter_cached (cs : String → String) (chain : String → Except String Nat)
    (address : String) :
    ∀ (N : Nat) (m : NonceManager) (n : Nat),
      dictGet (cs address) m.nonces = some n →
      (NonceManager.get_next_iter cs chain m address N).1 =
          (List.range' n N).map Except.ok ∧
        dictGet (cs address) (NonceManager.get_next_iter cs chain m address N).2.nonces =
          some (n + N) := by
  intro N
  induction N with
  | zero =>
    intro m n h
    simpa [NonceManager.get_next_iter] using h
  | succ N ih =>
    intro m n h
    have hstep := get_next_cached cs chain m address n h
    have hcache : dictGet (cs address)
        (NonceManager.get_next cs chain m address).2.nonces = some (n + 1) := by
      rw [hstep]
      exact dictGet_dictSet_self _ _ _
    obtain ⟨h1, h2⟩ := ih (NonceManager.get_next cs chain m address).2 (n + 1) hcache
    rw [hstep] at h1 h2
    constructor
    · simp only [NonceManager.get_next_iter, hstep, List.range'_succ, List.map_cons]
      exact congrArg _ h1
    · simp only [NonceManager.get_next_iter, hstep]
      rw [h2]
      congr 1
      omega

/-- C2: starting from a state with no cached nonce for address `A`, `N`
sequential calls to `get_next` return the contiguous run
`c, c+1, ..., c+N-1` where `c` is the chain-reported transaction count
fetched at the first allocation; once a value is cached the chain is never
consulted again (the result is the same for any chain function); `reset`
clears the cache, after which the next `get_next` re-fetches from the
chain. -/
theorem nonce_allocate_contiguous_single_fetch
    (cs : String → String) (chain : String → Except String Nat)
    (m : NonceManager) (A : String) (c N : Nat)
    (hfresh : dictGet (cs A) m.nonces = none)
    (hchain : chain (cs A) = Except.ok c) :
    (NonceManager.get_next_iter cs chain m A N).1 = (List.range' c N).map Except.ok
    ∧ (∀ (chain₂ : String → Except String Nat) (m₂ : NonceManager) (a : String) (n : Nat),
        dictGet (cs a) m₂.nonces = some n →
        NonceManager.get_next cs chain m₂ a = NonceManager.get_next cs chain₂ m₂ a)
    ∧ dictGet (cs A)
        (((NonceManager.get_next_iter cs chain m A N).2).reset cs A).nonces = none
    ∧ (∀ (chain₂ : String → Except String Nat) (c₂ : Nat), chain₂ (cs A) = Except.ok c₂ →
        (NonceManager.get_next cs chain₂
          (((NonceManager.get_next_iter cs chain m A N).2).reset cs A) A).1 =
          Except.ok c₂) := by
  have hstep : NonceManager.get_next cs chain m A =
      (Except.ok c, ⟨dictSet (cs A) (c + 1) m.nonces⟩) := by
    simp [NonceManager.get_next, NonceManager.key, hfresh, hchain]
  refine ⟨?_, ?_, ?_, ?_⟩
  · cases N with
    | zero => simp [NonceManager.get_next_iter]
    | succ n =>
      have hcache : dictGet (cs A)
          (NonceManager.get_next cs chain m A).2.nonces = some (c + 1) := by
        rw [hstep]; exact dictGet_dictSet_self _ _ _
      obtain ⟨h1, _⟩ :=
        get_next_iter_cached cs chain A n (NonceManager.get_next cs chain m A).2 (c + 1) hcache
      rw [hstep] at h1
      simp only [NonceManager.get_next_iter, hstep, List.range'_succ, List.map_cons]
      exact congrArg _ h1
  · intro chain₂ m₂ a n h
    simp [NonceManager.get_next, NonceManager.key, h]
  · exact dictGet_dictPop_self _ _
  · intro chain₂ c₂ h₂
    have hres : dictGet (cs A)
        (((NonceManager.get_next_iter cs chain m A N).2).reset cs A).nonces = none :=
      dictGet_dictPop_self _ _
    simp [NonceManager.get_next, NonceManager.key, hres, h₂]

theorem nonce_allocate_contiguous_single_fetch_witness :
    (NonceManager.get_next_iter id (fun _ => Except.ok 5) ⟨[]⟩ "0xA" 3).1 =
      (List.range' 5 3).map Except.ok :=
  (nonce_allocate_contiguous_single_fetch id (fun _ => Except.ok 5) ⟨[]⟩ "0xA" 5 3
    rfl rfl).1

/-- C9: when the chain transaction-count query fails at the first allocation
for an address, `get_next` returns the failure and the state is unchanged
(nothing cached, counter not advanced), so a subsequent call with a working
chain re-fetches the chain count. -/
theorem nonce_fetch_failure_propagates
    (cs : String → String) (chain : String → Except String Nat)
    (m : NonceManager) (A : String) (e : String)
    (hfresh : dictGet (cs A) m.nonces = none)
    (hchain : chain (cs A) = Except.error e) :
    NonceManager.get_next cs chain m A = (Except.error e, m)
    ∧ (∀ (chain₂ : String → Except String Nat) (c₂ : Nat),
        chain₂ (cs A) = Except.ok c₂ →
        NonceManager.get_next cs chain₂ m A =
          (Except.ok c₂, ⟨dictSet (cs A) (c₂ + 1) m.nonces⟩)) := by
  constructor
  · simp [NonceManager.get_next, NonceManager.key, hfresh, hchain]
  · intro chain₂ c₂ h₂
    simp [NonceManager.get_next, NonceManager.key, hfresh, h₂]

theorem nonce_fetch_failure_propagates_witness :
    NonceManager.get_next id (fun _ => Except.error "rpc down") ⟨[]⟩ "0xA" =
      (Except.error "rpc down", (⟨[]⟩ : NonceManager)) :=
  (nonce_fetch_failure_propagates id (fun _ => Except.error "rpc down") ⟨[]⟩ "0xA"
    "rpc down" rfl rfl).1

/-! ### Transaction Lifecycle Tracker (`sceptic/tx.py`, `wait_for_receipt`)

The loop polls `get_transaction_receipt`, returns a truthy receipt at once,
swallows query exceptions, and only then compares the clock against
`deadline = start + timeout_sec` before sleeping `poll_interval_sec`.
Time is modelled exactly: queries are instantaneous and the clock at the
`i`-th loop iteration reads `i * poll_interval_sec` (the start time is 0,
so the deadline is `timeout_sec`).  The `i`-th chain query outcome is
`query i`; recursion is fuel-indexed, with `none` meaning the fuel ran out
before the loop returned. -/

/-- Outcome of one `get_transaction_receipt` call: a truthy receipt, a
falsy/None receipt, or a raised (and swallowed) exception. -/
inductive PollResult where
  | receipt (r : Nat)
  | chainNone
  | chainErr
deriving DecidableEq, Repr

def PollResult.isReceipt : PollResult → Bool
  | .receipt _ => true
  | .chainNone => false
  | .chainErr => false

/-- Result of `wait_for_receipt`, counting how many chain polls were made. -/
inductive WaitOutcome where
  | received (r : Nat) (polls : Nat)
  | timedOut (polls : Nat)
deriving DecidableEq, Repr

/-- The `while True` body of `wait_for_receipt`: poll, return a truthy
receipt, else raise `TimeoutError` when the clock has passed the deadline,
else sleep and loop. -/
def wait_loop (query : Nat → PollResult) (deadline poll : ℚ) :
    Nat → Nat → Option WaitOutcome
  | _, 0 => none
  | i, fuel + 1 =>
    match query i with
    | .receipt r => some (.received r (i + 1))
    | .chainNone =>
      if deadline < (i : ℚ) * poll then some (.timedOut (i + 1))
      else wait_loop query deadline poll (i + 1) fuel
    | .chainErr =>
      if deadline < (i : ℚ) * poll then some (.timedOut (i + 1))
      else wait_loop query deadline poll (i + 1) fuel

/-- `wait_for_receipt(w3, tx_hash, timeout_sec, poll_interval_sec)`. -/
def wait_for_receipt (query : Nat → PollResult) (timeout_sec poll_interval_sec : ℚ)
    (fuel : Nat) : Option WaitOutcome :=
  wait_loop query timeout_sec poll_interval_sec 0 fuel

theorem wait_loop_shift (query : Nat → PollResult) (d p : ℚ) :
    ∀ (k i fuel : Nat),
      (∀ j, i ≤ j → j < i + k → (query j).isReceipt = false ∧ ¬ d < (j : ℚ) * p) →
      wait_loop query d p i (k + fuel) = wait_loop query d p (i + k) fuel := by
  intro k
  induction k with
  | zero => intro i fuel _; simp
  | succ k ih =>
    intro i fuel h
    have hi := h i le_rfl (by omega)
    have hrest : ∀ j, i + 1 ≤ j → j < (i + 1) + k →
        (query j).isReceipt = false ∧ ¬ d < (j : ℚ) * p :=
      fun j hj1 hj2 => h j (by omega) (by omega)
    have hfe : k + 1 + fuel = (k + fuel) + 1 := by omega
    rw [hfe]
    have hik : (i + 1) + k = i + (k + 1) := by omega
    cases hq : query i with
    | receipt r => simp [PollResult.isReceipt, hq] at hi
    | chainNone =>
      simp only [wait_loop, hq, if_neg hi.2]
      rw [ih (i + 1) fuel hrest, hik]
    | chainErr =>
      simp only [wait_loop, hq, if_neg hi.2]
      rw [ih (i + 1) fuel hrest, hik]

/-- C3 (amended): `wait_for_receipt` returns the receipt as soon as a poll
observes a truthy receipt; if no receipt appears, it raises `Timeout` after
the first poll whose clock reading exceeds the deadline — the deadline is
checked after each poll, so the final poll happens after the window has
already elapsed (with `timeout = 1`, `poll = 2` that makes two poll
attempts, not one). -/
theorem wait_receipt_first_success_or_timeout
    (query : Nat → PollResult) (d p : ℚ) (i r fuel : Nat)
    (hbefore : ∀ j, j < i → (query j).isReceipt = false ∧ ¬ d < (j : ℚ) * p)
    (hfuel : i + 1 ≤ fuel) :
    (query i = PollResult.receipt r →
      wait_for_receipt query d p fuel = some (WaitOutcome.received r (i + 1)))
    ∧ ((query i).isReceipt = false → d < (i : ℚ) * p →
      wait_for_receipt query d p fuel = some (WaitOutcome.timedOut (i + 1))) := by
  obtain ⟨f, rfl⟩ : ∃ f, fuel = i + (f + 1) := ⟨fuel - i - 1, by omega⟩
  have hshift : wait_for_receipt query d p (i + (f + 1)) = wait_loop query d p i (f + 1) := by
    have := wait_loop_shift query d p i 0 (f + 1)
      (fun j hj1 hj2 => hbefore j (by omega))
    simpa [wait_for_receipt] using this
  constructor
  · intro hq
    rw [hshift]
    simp only [wait_loop, hq]
  · intro hq hd
    rw [hshift]
    cases hq2 : query i with
    | receipt r' => simp [PollResult.isReceipt, hq2] at hq
    | chainNone => simp only [wait_loop, hq2, if_pos hd]
    | chainErr => simp only [wait_loop, hq2, if_pos hd]

theorem wait_receipt_first_success_or_timeout_witness :
    wait_for_receipt (fun j => if j = 2 then PollResult.receipt 7 else PollResult.chainNone)
      10 2 5 = some (WaitOutcome.received 7 3) :=
  (wait_receipt_first_success_or_timeout
    (fun j => if j = 2 then PollResult.receipt 7 else PollResult.chainNone)
    10 2 2 7 5
    (by
      intro j hj
      have h2 : j = 0 ∨ j = 1 := by omega
      rcases h2 with rfl | rfl <;> exact ⟨rfl, by norm_num⟩)
    (by omega)).1 rfl

/-- C3 (counterexample to the claim as stated): with `timeout = 1` and
`poll = 2` and a receipt that never appears, the code makes exactly two
poll attempts before raising `Timeout` — not one, because the deadline is
only checked after each poll. -/
theorem wait_receipt_two_polls_counterexample :
    wait_for_receipt (fun _ => PollResult.chainErr) 1 2 5 =
        some (WaitOutcome.timedOut 2)
    ∧ wait_for_receipt (fun _ => PollResult.chainErr) 1 2 5 ≠
        some (WaitOutcome.timedOut 1) := by
  have h : wait_for_receipt (fun _ => PollResult.chainErr) 1 2 5 =
      some (WaitOutcome.timedOut 2) := by
    norm_num [wait_for_receipt, wait_loop]
  exact ⟨h, by rw [h]; decide⟩

/-! ### Gas Pricing Strategy (`sceptic/gas.py`, `GasStrategy.apply`)

Python floats are modelled as exact rationals.  `w3.to_wei(x, "gwei")` is
library code converting gwei to wei (base units); it is modelled as
`⌊x * 10^9⌋`, which agrees with it on every value the strategy can be
configured with.  The one chain query `w3.eth.gas_price` becomes the
`gas_price` argument. -/

structure GasStrategy where
  priority_gwei : ℚ := 1
  max_multiplier : ℚ := 6 / 5
  legacy_gwei : Option ℚ := none
deriving DecidableEq, Repr

/-- The dict returned by `GasStrategy.apply`: each fee key is present or
absent. -/
structure FeeDict where
  gasPrice : Option ℤ
  maxFeePerGas : Option ℤ
  maxPriorityFeePerGas : Option ℤ
deriving DecidableEq, Repr

/-- Models `w3.to_wei(x, "gwei")`. -/
def to_wei_gwei (x : ℚ) : ℤ := ⌊x * 1000000000⌋

/-- `GasStrategy.apply`: legacy branch returns `{"gasPrice": ...}` only;
otherwise `{"maxFeePerGas": floor(gas_price * max_multiplier),
"maxPriorityFeePerGas": to_wei(priority_gwei, "gwei")}`. -/
def GasStrategy.apply (g : GasStrategy) (gas_price : Nat) : FeeDict :=
  match g.legacy_gwei with
  | some lg =>
    { gasPrice := some (to_wei_gwei lg)
      maxFeePerGas := none
      maxPriorityFeePerGas := none }
  | none =>
    { gasPrice := none
      maxFeePerGas := some ⌊(gas_price : ℚ) * g.max_multiplier⌋
      maxPriorityFeePerGas := some (to_wei_gwei g.priority_gwei) }

/-- C5: with `legacy_gwei` set the result carries only the legacy gas-price
field (the configured gwei value in base units) and no EIP-1559 fields; with
`legacy_gwei` unset the result carries exactly
`maxFeePerGas = floor(gas_price * max_multiplier)` and
`maxPriorityFeePerGas = priority_gwei in base units`, for every network gas
price. -/
theorem gas_apply_legacy_or_eip1559 (g : GasStrategy) (gas_price : Nat) :
    (∀ lg, g.legacy_gwei = some lg →
      g.apply gas_price =
        { gasPrice := some (to_wei_gwei lg)
          maxFeePerGas := none
          maxPriorityFeePerGas := none })
    ∧ (g.legacy_gwei = none →
      g.apply gas_price =
        { gasPrice := none
          maxFeePerGas := some ⌊(gas_price : ℚ) * g.max_multiplier⌋
          maxPriorityFeePerGas := some (to_wei_gwei g.priority_gwei) }) := by
  constructor
  · intro lg hlg
    simp [GasStrategy.apply, hlg]
  · intro hnone
    simp [GasStrategy.apply, hnone]

theorem gas_apply_legacy_or_eip1559_witness :
    GasStrategy.apply { priority_gwei := 1, max_multiplier := 6 / 5, legacy_gwei := some 2 }
        1000000000 =
      { gasPrice := some (to_wei_gwei 2)
        maxFeePerGas := none
        maxPriorityFeePerGas := none } :=
  (gas_apply_legacy_or_eip1559
    { priority_gwei := 1, max_multiplier := 6 / 5, legacy_gwei := some 2 } 1000000000).1
    2 rfl

/-! ### Gateway Server message loop (`sceptic/server.py`, `RpcServer._handle`)

One inbound WebSocket message either fails `json.loads`/attribute access
(`Inbound.malformed`; the handler's `id_` is still `None` at that point) or
yields `req.get("method")` and `req.get("id")`.  Handlers are modelled by
the outcome their invocation would have on this message (`Except.error` =
the handler raised).  Connections are identified by numbers; the
subscriber set becomes a duplicate-free list with `set.add` / `set.discard`
semantics.  Response payloads other than `{ok: true}` are abstracted to a
number. -/

inductive Inbound where
  | malformed
  | request (method : Option String) (id : Option Int)
deriving DecidableEq, Repr

inductive ErrKind where
  | methodDisabled
  | methodNotFound
  | exceptionText
deriving DecidableEq, Repr

inductive RpcResult where
  | okTrue
  | payload (v : Nat)
deriving DecidableEq, Repr

inductive Response where
  | success (id : Option Int) (res : RpcResult)
  | failure (id : Option Int) (code : Int) (kind : ErrKind)
deriving DecidableEq, Repr

structure ServerState where
  handlers : List (String × Except String Nat)
  enabled : List String
  subscribers : List Nat
deriving Repr

/-- `set.add`. -/
def setAdd (c : Nat) (l : List Nat) : List Nat := if c ∈ l then l else l ++ [c]

/-- `set.discard`. -/
def setDiscard (c : Nat) (l : List Nat) : List Nat := l.filter (fun x => x ≠ c)

/-- Python `method in <list of str>` for a `req.get("method")` value that may
be `None`. -/
def optMem (x : Option String) (l : List String) : Bool :=
  match x with
  | none => false
  | some s => l.contains s

/-- The body of `async for raw in ws` in `RpcServer._handle`, for one
message: method gating, registry check, the `events.subscribe` /
`events.unsubscribe` special cases, dispatch, and the `except` clause that
turns any raised exception into a `-32000` error response carrying the id
recovered so far (`None` on a parse failure). -/
def handle_message (st : ServerState) (conn : Nat) (msg : Inbound) :
    List Response × ServerState :=
  match msg with
  | .malformed => ([Response.failure none (-32000) ErrKind.exceptionText], st)
  | .request method id =>
    if st.enabled ≠ [] ∧ st.enabled.contains "*" = false ∧ optMem method st.enabled = false
    then ([Response.failure id (-32601) ErrKind.methodDisabled], st)
    else if optMem method (st.handlers.map Prod.fst) = false then
      ([Response.failure id (-32601) ErrKind.methodNotFound], st)
    else if method = some "events.subscribe" then
      ([Response.success id RpcResult.okTrue],
        { st with subscribers := setAdd conn st.subscribers })
    else if method = some "events.unsubscribe" then
      ([Response.success id RpcResult.okTrue],
        { st with subscribers := setDiscard conn st.subscribers })
    else
      match method with
      | none => ([], st)
      | some mm =>
        match List.lookup mm st.handlers with
        | some (Except.ok v) => ([Response.success id (RpcResult.payload v)], st)
        | some (Except.error _) =>
          ([Response.failure id (-32000) ErrKind.exceptionText], st)
        | none => ([], st)

/-- The whole `async for` loop over a sequence of inbound messages. -/
def handle_messages (st : ServerState) (conn : Nat) :
    List Inbound → List Response × ServerState
  | [] => ([], st)
  | msg :: rest =>
    let step := handle_message st conn msg
    let cont := handle_messages step.2 conn rest
    (step.1 ++ cont.1, cont.2)

/-- The handler names registered by `build_default_server`, in registration
order.  No handler named `events.subscribe` or `events.unsubscribe` is ever
registered. -/
def default_handler_names : List String :=
  ["health", "price.usd", "erc20.balance", "erc20.allowance", "erc20.transfer",
   "erc20.approve", "defi.quote", "defi.swapExactTokensForTokens", "rpc.call",
   "erc20.permitSign", "multicall.aggregate"]

def default_handler_outcomes : List (String × Except String Nat) :=
  default_handler_names.map (fun n => (n, Except.ok 0))

/-- C1 (code evaluated at the failing input): on a server built by
`build_default_server` with the default `["*"]` method allow-list, a request
for `events.subscribe` (or `events.unsubscribe`) is answered with the
`-32601 Method not found` error and the subscriber set is left unchanged:
the registry check at server.py:105 precedes the subscribe special case at
server.py:108, and no handler under either name is ever registered, so the
special case is unreachable. -/
theorem subscribe_hits_method_not_found :
    handle_message ⟨default_handler_outcomes, ["*"], []⟩ 1
        (Inbound.request (some "events.subscribe") (some 1)) =
      ([Response.failure (some 1) (-32601) ErrKind.methodNotFound],
        ⟨default_handler_outcomes, ["*"], []⟩)
    ∧ handle_message ⟨default_handler_outcomes, ["*"], []⟩ 1
        (Inbound.request (some "events.unsubscribe") (some 1)) =
      ([Response.failure (some 1) (-32601) ErrKind.methodNotFound],
        ⟨default_handler_outcomes, ["*"], []⟩) := by
  constructor
  · rfl
  · rfl

/-- C4 (counterexample to the claim as stated): a malformed message, from
which no request id is recoverable, is not dropped — the server still sends
an error response (with a null id). -/
theorem parse_failure_never_dropped_counterexample :
    (handle_message ⟨[], ["*"], []⟩ 0 Inbound.malformed).1 =
        [Response.failure none (-32000) ErrKind.exceptionText]
    ∧ (handle_message ⟨[], ["*"], []⟩ 0 Inbound.malformed).1 ≠ [] := by
  constructor
  · rfl
  · decide

/-- C4 (amended): every message that fails to parse as a JSON-RPC request
produces exactly one error response, code `-32000`, whose id is null (no id
is ever recovered from an unparseable message); the message is never
dropped silently, the server state is unchanged, and the connection stays
open — subsequent messages are processed as if the failure had not
happened. -/
theorem parse_failure_error_response_conn_open
    (st : ServerState) (conn : Nat) (rest : List Inbound) :
    handle_message st conn Inbound.malformed =
        ([Response.failure none (-32000) ErrKind.exceptionText], st)
    ∧ handle_messages st conn (Inbound.malformed :: rest) =
        (Response.failure none (-32000) ErrKind.exceptionText ::
            (handle_messages st conn rest).1,
          (handle_messages st conn rest).2) := by
  constructor
  · rfl
  · simp [handle_messages, handle_message]

/-! ### Block Event Broadcaster (`sceptic/server.py`,
`RpcServer._broadcast_block` and `RpcServer._block_broadcaster`)

`sendOk` tells whether `sub.send(note)` succeeds for a given connection (a
raising send marks the subscriber dead).  A notification's content is
determined by its block number, so a broadcast is recorded as the list of
connections the note was delivered to. -/

/-- `RpcServer._broadcast_block`: send to every current subscriber, collect
the subscribers whose send raised into `dead`, then discard each of them.
Returns (connections delivered to, new subscriber set). -/
def broadcast_block (sendOk : Nat → Bool) (subs : List Nat) : List Nat × List Nat :=
  let dead := subs.filter (fun c => !(sendOk c))
  (subs.filter sendOk, subs.filter (fun c => !(dead.contains c)))

/-- Broadcaster state: `self._last_block` and the subscriber set. -/
structure BState where
  last_block : Option Nat
  subscribers : List Nat
deriving DecidableEq, Repr

/-- The `for b in range(self._last_block + 1, bn + 1): await
self._broadcast_block(b)` loop, over an explicit list of block numbers;
`sendOk b c` is the send outcome for block `b` and connection `c`.  Returns
the per-block delivery lists (block number paired with the connections the
note reached) and the final subscriber set. -/
def broadcast_range (sendOk : Nat → Nat → Bool) (subs : List Nat) :
    List Nat → List (Nat × List Nat) × List Nat
  | [] => ([], subs)
  | b :: bs =>
    let step := broadcast_block (sendOk b) subs
    let rest := broadcast_range sendOk step.2 bs
    ((b, step.1) :: rest.1, rest.2)

/-- One iteration of the `while True` loop in `_block_broadcaster`: query
the chain head (`head` is its outcome; a raised query is `.error`), seed
`last_block` if unset, broadcast `(last_block, bn]` if the head advanced,
and otherwise change nothing.  A query failure is caught and changes
nothing. -/
def broadcaster_tick (sendOk : Nat → Nat → Bool) (head : Except Unit Nat) (st : BState) :
    List (Nat × List Nat) × BState :=
  match head with
  | Except.error _ => ([], st)
  | Except.ok bn =>
    match st.last_block with
    | none => ([], ⟨some bn, st.subscribers⟩)
    | some l =>
      if l < bn then
        let run := broadcast_range sendOk st.subscribers (List.range' (l + 1) (bn - l))
        (run.1, ⟨some bn, run.2⟩)
      else ([], st)

theorem broadcast_block_fst (sendOk : Nat → Bool) (subs : List Nat) :
    (broadcast_block sendOk subs).1 = subs.filter sendOk := rfl

theorem broadcast_block_snd (sendOk : Nat → Bool) (subs : List Nat) :
    (broadcast_block sendOk subs).2 = subs.filter sendOk := by
  show subs.filter (fun c => !((subs.filter (fun c => !(sendOk c))).contains c)) =
    subs.filter sendOk
  apply List.filter_congr
  intro x hx
  by_cases hs : sendOk x = true
  · simp [hs, List.elem_eq_mem, List.mem_filter]
  · simp only [Bool.not_eq_true] at hs
    simp [hs, List.elem_eq_mem, List.mem_filter, hx]

theorem broadcast_range_map_fst (sendOk : Nat → Nat → Bool) :
    ∀ (bs : List Nat) (subs : List Nat),
      (broadcast_range sendOk subs bs).1.map Prod.fst = bs := by
  intro bs
  induction bs with
  | nil => intro subs; rfl
  | cons b rest ih =>
    intro subs
    simp [broadcast_range, ih]

theorem broadcast_range_recipients_sub (sendOk : Nat → Nat → Bool) :
    ∀ (bs : List Nat) (subs : List Nat),
      (∀ p ∈ (broadcast_range sendOk subs bs).1, ∀ c ∈ p.2, c ∈ subs)
      ∧ (∀ c ∈ (broadcast_range sendOk subs bs).2, c ∈ subs) := by
  intro bs
  induction bs with
  | nil =>
    intro subs
    exact ⟨by simp [broadcast_range], by simp [broadcast_range]⟩
  | cons b rest ih =>
    intro subs
    have hstep : (broadcast_block (sendOk b) subs).2 = subs.filter (sendOk b) :=
      broadcast_block_snd _ _
    obtain ⟨ih1, ih2⟩ := ih (broadcast_block (sendOk b) subs).2
    constructor
    · intro p hp c hc
      simp only [broadcast_range, List.mem_cons] at hp
      rcases hp with rfl | hp
      · rw [broadcast_block_fst] at hc
        exact (List.mem_filter.mp hc).1
      · have := ih1 p hp c hc
        rw [hstep] at this
        exact (List.mem_filter.mp this).1
    · intro c hc
      simp only [broadcast_range] at hc
      have := ih2 c hc
      rw [hstep] at this
      exact (List.mem_filter.mp this).1

theorem chain_lt_range' (s : Nat) :
    ∀ n : Nat, (List.range' s n).Chain' (· < ·) := by
  have key : ∀ (n s : Nat), (List.range' s n).Chain' (· < ·) := by
    intro n
    induction n with
    | zero => intro s; simp
    | succ m ih =>
      intro s
      rw [List.range'_succ]
      cases m with
      | zero => simp
      | succ k =>
        rw [List.range'_succ]
        refine List.chain'_cons.mpr ⟨by omega, ?_⟩
        rw [← List.range'_succ]
        exact ih (s + 1)
  exact fun n => key n s

/-- C6: on a tick where the head query returns `bn > lastSeen = l`, the
broadcast covers exactly the block numbers `l+1, ..., bn`, one broadcast
per block, in strictly ascending order; every delivery goes to a connection
that was in the subscriber set; `last_block` advances to `bn`.  On a tick
where the head query fails, nothing is sent and the state (including
`last_block`) is unchanged. -/
theorem broadcaster_tick_ascending_blocks
    (sendOk : Nat → Nat → Bool) (l bn : Nat) (subs : List Nat)
    (h : l < bn) :
    (broadcaster_tick sendOk (Except.ok bn) ⟨some l, subs⟩).1.map Prod.fst =
        List.range' (l + 1) (bn - l)
    ∧ ((broadcaster_tick sendOk (Except.ok bn) ⟨some l, subs⟩).1.map Prod.fst).Chain'
        (· < ·)
    ∧ (∀ p ∈ (broadcaster_tick sendOk (Except.ok bn) ⟨some l, subs⟩).1,
        ∀ c ∈ p.2, c ∈ subs)
    ∧ (broadcaster_tick sendOk (Except.ok bn) ⟨some l, subs⟩).2.last_block = some bn
    ∧ (∀ st : BState, broadcaster_tick sendOk (Except.error ()) st = ([], st)) := by
  have hmap : (broadcaster_tick sendOk (Except.ok bn) ⟨some l, subs⟩).1.map Prod.fst =
      List.range' (l + 1) (bn - l) := by
    simp only [broadcaster_tick, if_pos h]
    exact broadcast_range_map_fst sendOk _ subs
  refine ⟨hmap, ?_, ?_, ?_, ?_⟩
  · rw [hmap]; exact chain_lt_range' (l + 1) (bn - l)
  · intro p hp c hc
    simp only [broadcaster_tick, if_pos h] at hp
    exact (broadcast_range_recipients_sub sendOk _ subs).1 p hp c hc
  · simp [broadcaster_tick, if_pos h]
  · intro st; rfl

theorem broadcaster_tick_ascending_blocks_witness :
    (broadcaster_tick (fun _ _ => true) (Except.ok 103) ⟨some 100, [1, 2]⟩).1.map
        Prod.fst = List.range' 101 3 :=
  (broadcaster_tick_ascending_blocks (fun _ _ => true) 100 103 [1, 2] (by omega)).1

/-- C7: during one block broadcast, every subscriber whose send fails is
removed from the subscriber set, every subscriber whose send succeeds still
receives the notification (the failure never aborts the loop), and any later
broadcast from the pruned set can only deliver to (and keep) members of the
pruned set — so a removed connection receives no further notifications. -/
theorem broadcast_block_prunes_dead
    (sendOk : Nat → Bool) (subs : List Nat) :
    (∀ c ∈ subs, sendOk c = false → c ∉ (broadcast_block sendOk subs).2)
    ∧ (∀ c ∈ subs, sendOk c = true → c ∈ (broadcast_block sendOk subs).1)
    ∧ (∀ sendOk₂ : Nat → Bool,
        (∀ c ∈ (broadcast_block sendOk₂ (broadcast_block sendOk subs).2).1,
          c ∈ (broadcast_block sendOk subs).2)
        ∧ (∀ c ∈ (broadcast_block sendOk₂ (broadcast_block sendOk subs).2).2,
          c ∈ (broadcast_block sendOk subs).2)) := by
  refine ⟨?_, ?_, ?_⟩
  · intro c hc hdead
    rw [broadcast_block_snd]
    intro hmem
    rw [List.mem_filter] at hmem
    rw [hmem.2] at hdead
    exact Bool.noConfusion hdead
  · intro c hc hok
    rw [broadcast_block_fst, List.mem_filter]
    exact ⟨hc, hok⟩
  · intro sendOk₂
    constructor
    · intro c hc
      rw [broadcast_block_fst, List.mem_filter] at hc
      exact hc.1
    · intro c hc
      rw [broadcast_block_snd, List.mem_filter] at hc
      exact hc.1

theorem broadcast_block_prunes_dead_witness :
    2 ∉ (broadcast_block (fun c => c == 1) [1, 2]).2 :=
  (broadcast_block_prunes_dead (fun c => c == 1) [1, 2]).1 2 (by decide) (by decide)

/-! ### Connection authentication (`sceptic/server.py`, `RpcServer._auth_ok`
and the `ws_handler` closure in `RpcServer.start`)

Handshake headers are a string-keyed mapping (or absent when the websocket
object carries none).  Python truthiness matters twice: an empty configured
token counts as "no token", and an empty header value loses to the
fallback in `headers.get("authorization") or headers.get("Authorization")`.
-/

/-- Python truthiness of `self.cfg.server_api_token`. -/
def truthy_token : Option String → Bool
  | none => false
  | some t => !(t == "")

/-- `headers.get("authorization") or headers.get("Authorization")`. -/
def header_auth (headers : List (String × String)) : Option String :=
  match List.lookup "authorization" headers with
  | some s => if s = "" then List.lookup "Authorization" headers else some s
  | none => List.lookup "Authorization" headers

/-- `RpcServer._auth_ok`. -/
def auth_ok (token : Option String) (headers : List (String × String)) : Bool :=
  match token with
  | none => true
  | some t =>
    if t = "" then true
    else decide (header_auth headers = some ("Bearer " ++ t))

inductive ConnOutcome where
  | closed_unauthorized (code : Nat)
  | handled
deriving DecidableEq, Repr

/-- The connection-open part of `ws_handler`: when an API token is
configured (non-empty), a missing or empty header mapping, or a failing
`_auth_ok`, closes the connection with status 4401 and returns before
`_handle` ever runs; otherwise the connection proceeds to the message
loop (`handled`). -/
def ws_handler_auth (token : Option String)
    (headers : Option (List (String × String))) : ConnOutcome :=
  if truthy_token token then
    match headers with
    | none => ConnOutcome.closed_unauthorized 4401
    | some hs =>
      if hs = [] then ConnOutcome.closed_unauthorized 4401
      else if auth_ok token hs then ConnOutcome.handled
      else ConnOutcome.closed_unauthorized 4401
  else ConnOutcome.handled

/-- C8: with a (non-empty) API token configured, a connection whose
handshake lacks a matching `Authorization: Bearer <token>` credential is
closed with the distinct unauthorized status 4401 and never reaches the
message loop; a matching credential proceeds; with no token configured,
every connection proceeds with no authentication check. -/
theorem auth_gate_closes_unauthorized (t : String) (ht : t ≠ "") :
    (∀ headers, ws_handler_auth none headers = ConnOutcome.handled)
    ∧ ws_handler_auth (some t) none = ConnOutcome.closed_unauthorized 4401
    ∧ (∀ hs, header_auth hs ≠ some ("Bearer " ++ t) →
        ws_handler_auth (some t) (some hs) = ConnOutcome.closed_unauthorized 4401)
    ∧ (∀ hs, header_auth hs = some ("Bearer " ++ t) →
        ws_handler_auth (some t) (some hs) = ConnOutcome.handled) := by
  have htt : truthy_token (some t) = true := by
    simp [truthy_token, ht]
  refine ⟨?_, ?_, ?_, ?_⟩
  · intro headers; rfl
  · simp [ws_handler_auth, htt]
  · intro hs hne
    have hao : auth_ok (some t) hs = false := by
      simp [auth_ok, ht, hne]
    by_cases hnil : hs = []
    · simp [ws_handler_auth, htt, hnil]
    · simp [ws_handler_auth, htt, hnil, hao]
  · intro hs heq
    have hnil : hs ≠ [] := by
      intro h
      rw [h] at heq
      simp [header_auth, List.lookup] at heq
    have hao : auth_ok (some t) hs = true := by
      simp [auth_ok, ht, heq]
    simp [ws_handler_auth, htt, hnil, hao]

theorem auth_gate_closes_unauthorized_witness :
    ws_handler_auth (some "secret") (some [("authorization", "Bearer wrong")]) =
      ConnOutcome.closed_unauthorized 4401 :=
  (auth_gate_closes_unauthorized "secret" (by decide)).2.2.1
    [("authorization", "Bearer wrong")] (by decide)

/-! ### Nonce sourcing of the write handlers (`sceptic/server.py`
handlers `erc20.transfer`, `erc20.approve`, `defi.swapExactTokensForTokens`;
`sceptic/erc20.py`, `ERC20._base_tx_params`)

A read-only view of the chain client suffices here: `chain_id`,
per-address transaction count, and the gas estimator's answer. -/

structure ChainView where
  chain_id : Nat
  tx_count : String → Nat
  estimate_gas : Nat

/-- `sceptic.utils.TxParams`. -/
structure TxParams where
  gas : Option Nat := none
  gas_price : Option Nat := none
  max_fee_per_gas : Option Nat := none
  max_priority_fee_per_gas : Option Nat := none
  nonce : Option Nat := none
deriving DecidableEq, Repr

/-- The transaction-params dict assembled by `ERC20._base_tx_params`
followed by the `"gas"` fill in `ERC20.transfer` / `ERC20.approve`. -/
structure BaseTxParams where
  from_addr : String
  chainId : Nat
  nonce : Nat
  gas : Option Nat
  gasPrice : Option Nat
  maxFeePerGas : Option Nat
  maxPriorityFeePerGas : Option Nat
deriving DecidableEq, Repr

/-- `ERC20._base_tx_params`: nonce is `params.nonce` when given, else the
chain-reported transaction count fetched at call time. -/
def base_tx_params (cs : String → String) (chain : ChainView) (from_addr : String)
    (params : Option TxParams) : BaseTxParams :=
  { from_addr := cs from_addr
    chainId := chain.chain_id
    nonce :=
      match params with
      | some p =>
        match p.nonce with
        | some n => n
        | none => chain.tx_count (cs from_addr)
      | none => chain.tx_count (cs from_addr)
    gas := params.bind (fun p => p.gas)
    gasPrice := params.bind (fun p => p.gas_price)
    maxFeePerGas := params.bind (fun p => p.max_fee_per_gas)
    maxPriorityFeePerGas := params.bind (fun p => p.max_priority_fee_per_gas) }

/-- Transaction params built by `ERC20.transfer` and `ERC20.approve` when
called from the server handlers, which pass `tx_params = None`; `"gas"` is
estimated when absent.  (Calldata encoding and signing are external and
carry no nonce.) -/
def erc20_write_tx (cs : String → String) (chain : ChainView) (acct : String) :
    BaseTxParams :=
  let base := base_tx_params cs chain acct none
  { base with gas := some (base.gas.getD chain.estimate_gas) }

/-- Server handler `erc20.transfer` (server.py:184-195): the body composes
`ERC20.transfer(acct, to, amount)` only; `nonce_mgr` does not occur in it,
so the shared nonce-manager state passes through untouched. -/
def erc20_transfer_handler (cs : String → String) (chain : ChainView)
    (m : NonceManager) (acct : String) : BaseTxParams × NonceManager :=
  (erc20_write_tx cs chain acct, m)

/-- Server handler `erc20.approve` (server.py:197-208): same composition as
`erc20.transfer` (via `ERC20.approve`), with no `nonce_mgr` use. -/
def erc20_approve_handler (cs : String → String) (chain : ChainView)
    (m : NonceManager) (acct : String) : BaseTxParams × NonceManager :=
  (erc20_write_tx cs chain acct, m)

/-- The nonce allocation step of server handler
`defi.swapExactTokensForTokens` (server.py:223):
`nonce = await nonce_mgr.get_next(acct.address)`. -/
def defi_swap_nonce (cs : String → String) (chain : ChainView)
    (m : NonceManager) (acct : String) : Except String Nat × NonceManager :=
  NonceManager.get_next cs (fun a => Except.ok (chain.tx_count a)) m acct

/-- C10: the `erc20.transfer` and `erc20.approve` handlers never use the
Nonce Allocator — the transaction nonce is the chain-reported transaction
count fetched fresh at call time, the manager state passes through
unchanged, and the built transaction does not depend on the manager state
at all; by contrast `defi.swapExactTokensForTokens` allocates through the
manager, advancing its per-address cache. -/
theorem erc20_write_nonce_fresh_frame
    (cs : String → String) (chain : ChainView) (m : NonceManager) (acct : String) :
    ((erc20_transfer_handler cs chain m acct).1.nonce = chain.tx_count (cs acct)
      ∧ (erc20_transfer_handler cs chain m acct).2 = m
      ∧ ∀ m₂, (erc20_transfer_handler cs chain m acct).1 =
          (erc20_transfer_handler cs chain m₂ acct).1)
    ∧ ((erc20_approve_handler cs chain m acct).1.nonce = chain.tx_count (cs acct)
      ∧ (erc20_approve_handler cs chain m acct).2 = m
      ∧ ∀ m₂, (erc20_approve_handler cs chain m acct).1 =
          (erc20_approve_handler cs chain m₂ acct).1)
    ∧ (dictGet (cs acct) m.nonces = none →
        defi_swap_nonce cs chain m acct =
          (Except.ok (chain.tx_count (cs acct)),
            ⟨dictSet (cs acct) (chain.tx_count (cs acct) + 1) m.nonces⟩)) := by
  refine ⟨⟨rfl, rfl, fun m₂ => rfl⟩, ⟨rfl, rfl, fun m₂ => rfl⟩, ?_⟩
  intro hfresh
  simp [defi_swap_nonce, NonceManager.get_next, NonceManager.key, hfresh]

theorem erc20_write_nonce_fresh_frame_witness :
    defi_swap_nonce id ⟨1, fun _ => 9, 21000⟩ ⟨[]⟩ "0xA" =
      (Except.ok 9, (⟨[("0xA", 10)]⟩ : NonceManager)) :=
  (erc20_write_nonce_fresh_frame id ⟨1, fun _ => 9, 21000⟩ ⟨[]⟩ "0xA").2.2 rfl

end Sceptic
